import Mathlib

/-!
Shallow embedding of the chat endpoint in src/chat.c.

Bytes are modelled as Nat with explicit reduction mod 256 / mod 65536
where the C code truncates.  The C functions that perform socket I/O are
modelled as pure functions over the sequence of bytes the kernel returns
for each read call; a call to exit() is modelled as a dedicated result
constructor.  The in-memory representation of a uint16_t is modelled
with an explicit endianness parameter, because chat.c writes and reads
the raw object representation of the length field (it calls no htons or
ntohs on it).
-/

/-- LINE_LENGTH from chat.c line 28: size of the stack line buffers. -/
def LINE_LENGTH : Nat := 1024

/-- EXIT_SUCCESS as used by chat.c via stdlib. -/
def EXIT_SUCCESS : Nat := 0

/-- EXIT_FAILURE as used by chat.c via stdlib. -/
def EXIT_FAILURE : Nat := 1

/-- STDIN_FILENO: file descriptor 0, standard input. -/
def STDIN_FILENO : Nat := 0

/-- AF_INET address-family constant (Linux value 2). -/
def AF_INET : Nat := 2

/-- AF_INET6 address-family constant (Linux value 10). -/
def AF_INET6 : Nat := 10

/-- Byte order of the host that runs the program.  chat.c stores the
frame length in a uint16_t and writes its raw object representation to
the socket, so the wire format of the header depends on this. -/
inductive Endianness
  | little
  | big
deriving DecidableEq

/-- Object representation of a uint16_t with value n (n taken mod 2^16)
on a host with the given byte order: the two bytes as laid out in
memory. -/
def bytesOfUInt16 : Endianness → Nat → List Nat
  | .little, n => [n % 256, n / 256 % 256]
  | .big, n => [n / 256 % 256, n % 256]

/-- Value of a uint16_t whose two in-memory bytes are b0 (lower address)
and b1 (higher address) on a host with the given byte order. -/
def uint16OfBytes : Endianness → Nat → Nat → Nat
  | .little, b0, b1 => b0 + 256 * b1
  | .big, b0, b1 => 256 * b0 + b1

/-- strlen over a modelled C buffer: the number of bytes before the
first NUL byte. -/
def strlenList (l : List Nat) : Nat :=
  (l.takeWhile (fun b => b != 0)).length

/-- write_to_socket (chat.c lines 634-644), modelled as the list of
write calls it performs, each call being the byte sequence handed to
write().  The source computes message_len = strlen(message), truncates
it into a uint16_t (cast, i.e. mod 2^16), writes the two raw bytes of
that uint16_t, then writes message_len bytes of the message. -/
def write_to_socket (e : Endianness) (message : List Nat) : List (List Nat) :=
  let message_len := strlenList message
  let size := message_len % 65536
  [bytesOfUInt16 e size, message.take message_len]

/-- The 2-byte big-endian header the spec describes (written from the
words of the spec, as the refinement target for the wire format claim):
high byte of the truncated length first, then the low byte. -/
def specBigEndianHeader (n : Nat) : List Nat :=
  [n / 256 % 256, n % 256]

/-- One read() call performed by read_from_socket: the count argument
passed to read and the bytes the kernel returned. -/
structure ReadCall where
  count : Nat
  returned : List Nat
deriving DecidableEq

/-- Result of one invocation of read_from_socket. -/
inductive RecvResult
  /-- A read returned 0 bytes: the source calls exit(EXIT_SUCCESS). -/
  | exitSuccess
  /-- The payload read stored bytesRead payload bytes at indices
  0..bytesRead-1 and the source then stores a NUL at index bytesRead;
  with bytesRead at or above LINE_LENGTH some store lands outside the
  1024-byte stack buffer (undefined behavior in the source). -/
  | oob (bytesRead : Nat)
  /-- The payload was terminated in the buffer and written to standard
  output: the bytes written are strlen(buffer) bytes, i.e. the received
  bytes up to the first NUL. -/
  | output (bytes : List Nat)
deriving DecidableEq

/-- The read calls performed by one invocation of read_from_socket,
in order, together with its result. -/
structure RecvExec where
  calls : List ReadCall
  result : RecvResult
deriving DecidableEq

/-- Value of the local uint16_t size after the header read call
returned the bytes r1 (at most 2).  The variable is declared without an
initializer, so its object representation starts as the two
indeterminate bytes u0 and u1; read() overwrites the first r1.length of
them. -/
def headerValue (e : Endianness) (u0 u1 : Nat) (r1 : List Nat) : Nat :=
  let b := r1 ++ ([u0, u1].drop r1.length)
  uint16OfBytes e b.headI b.tail.headI

/-- read_from_socket (chat.c lines 651-679), modelled over the byte
sequences the two read() calls return: r1 for the header read (count
sizeof(uint16_t) = 2) and r2 for the payload read (count = the decoded
size).  A zero-byte read at either step makes the source call
exit(EXIT_SUCCESS).  Otherwise the source stores the r2.length payload
bytes into the 1024-byte buffer, stores a NUL at index r2.length, and
writes strlen(buffer) bytes to standard output. -/
def read_from_socket (e : Endianness) (u0 u1 : Nat) (r1 r2 : List Nat) : RecvExec :=
  if r1.length = 0 then
    { calls := [⟨2, r1⟩], result := .exitSuccess }
  else
    let size := headerValue e u0 u1 r1
    if r2.length = 0 then
      { calls := [⟨2, r1⟩, ⟨size, r2⟩], result := .exitSuccess }
    else if LINE_LENGTH ≤ r2.length then
      { calls := [⟨2, r1⟩, ⟨size, r2⟩], result := .oob r2.length }
    else
      { calls := [⟨2, r1⟩, ⟨size, r2⟩], result := .output (r2.takeWhile (fun b => b != 0)) }

/-- read_from_socket driven by a fully buffered stream whose peer has
closed: each read() returns min(count, bytes still available), taken
from the front of the stream.  Returns the execution and the bytes left
unread. -/
def recvStream (e : Endianness) (u0 u1 : Nat) (s : List Nat) : RecvExec × List Nat :=
  let r1 := s.take 2
  let size := headerValue e u0 u1 r1
  let r2 := (s.drop 2).take size
  (read_from_socket e u0 u1 r1 r2, (s.drop 2).drop size)

/-- Process state shared by the two threads of chat.c: the SIGTSTP
flag, the unread socket input, the bytes written to the socket, the
lines still waiting on standard input, and the bytes written to
standard output. -/
structure ProcState where
  sigtstp_flag : Bool
  netIn : List Nat
  netOut : List Nat
  stdinLines : List (List Nat)
  stdout : List Nat
deriving DecidableEq

/-- sigtstp_handler (chat.c lines 595-598): the SIGTSTP handler sets
sigtstp_flag to 1 and does nothing else. -/
def sigtstp_handler (s : ProcState) : ProcState :=
  { s with sigtstp_flag := true }

/-- One iteration of the while loop of write_message (chat.c lines
602-615): the loop condition checks the flag; when clear, the body
reads one line from standard input with fgets and sends it with
write_to_socket.  none models the loop exiting (pthread_exit). -/
def write_message_step (e : Endianness) (s : ProcState) : Option ProcState :=
  if s.sigtstp_flag then none
  else
    some { s with
      stdinLines := s.stdinLines.tail,
      netOut := s.netOut ++ (write_to_socket e s.stdinLines.headI).flatten }

/-- Outcome of one iteration of the while loop of read_message. -/
inductive InboundStep
  /-- The loop condition saw the flag set: the loop exits. -/
  | loopExit
  /-- read_from_socket called exit with this code, ending the process. -/
  | exited (code : Nat)
  /-- read_from_socket stored outside its buffer (undefined behavior). -/
  | undefinedStore (bytesRead : Nat)
  /-- The body delivered a payload to standard output and loops. -/
  | stepped (s : ProcState)
deriving DecidableEq

/-- One iteration of the while loop of read_message (chat.c lines
617-627): the loop condition checks the flag; when clear, the body runs
read_from_socket on the socket. -/
def read_message_step (e : Endianness) (u0 u1 : Nat) (s : ProcState) : InboundStep :=
  if s.sigtstp_flag then .loopExit
  else
    let r := recvStream e u0 u1 s.netIn
    match r.1.result with
    | .exitSuccess => .exited EXIT_SUCCESS
    | .oob n => .undefinedStore n
    | .output bytes => .stepped { s with netIn := r.2, stdout := s.stdout ++ bytes }

/-- Outcome of one call to accept() as seen by
socket_accept_connection: either a new descriptor, or failure with
errno either EINTR (interrupted = true) or some other error. -/
inductive AcceptOutcome
  | ok (fd : Nat)
  | err (interrupted : Bool)
deriving DecidableEq

/-- Observable result of socket_accept_connection: its return value and
whether it printed its own perror diagnostic. -/
structure AcceptRes where
  retval : Int
  perrorPrinted : Bool
deriving DecidableEq

/-- socket_accept_connection (chat.c lines 431-461): on accept failure
it prints a perror diagnostic unless errno is EINTR, and returns -1
either way; on success it returns the new descriptor. -/
def socket_accept_connection : AcceptOutcome → AcceptRes
  | .ok fd => { retval := (fd : Int), perrorPrinted := false }
  | .err interrupted => { retval := -1, perrorPrinted := !interrupted }

/-- Result of the accept loop in main. -/
inductive AcceptLoopResult
  /-- The loop left client_sockfd holding this descriptor. -/
  | accepted (fd : Nat)
  /-- main printed perror("accept") and called exit(EXIT_FAILURE). -/
  | exitFailure
deriving DecidableEq

/-- The accept loop of main (chat.c lines 111-120), driven by the
sequence of accept outcomes: while client_sockfd == 0, call
socket_accept_connection; if it returned -1, main prints
perror("accept") and exits with EXIT_FAILURE.  none models the loop
still blocked waiting for a connection when the modelled outcomes run
out. -/
def acceptLoop : List AcceptOutcome → Option AcceptLoopResult
  | [] => none
  | o :: rest =>
    let r := socket_accept_connection o
    if r.retval = -1 then some .exitFailure
    else if r.retval = 0 then acceptLoop rest
    else some (.accepted r.retval.toNat)

/-- The storage convert_address fills: the address family field and the
binary address bytes the platform conversion produced. -/
structure SockaddrStorage where
  ss_family : Nat
  bytes : List Nat
deriving DecidableEq

/-- The stderr line convert_address produces for a string that is
neither IPv4 nor IPv6. -/
def invalidMsg (address : List Char) : List Char :=
  address ++ (" is not an IPv4 or IPv6 address".toList)

/-- Result of convert_address. -/
inductive ConvertResult
  /-- The storage was filled and control returned to main. -/
  | ok (st : SockaddrStorage)
  /-- The source printed this line to stderr and called exit with this
  code. -/
  | fatal (stderrLine : List Char) (code : Nat)
deriving DecidableEq

/-- convert_address (chat.c lines 300-321), parametric in the two
platform conversions (inet_pton for AF_INET and for AF_INET6): it tries
the IPv4 conversion first, on failure the IPv6 conversion, and when
both fail it prints the offending string to stderr and exits with
EXIT_FAILURE. -/
def convert_address (pton4 pton6 : List Char → Option (List Nat)) (address : List Char) :
    ConvertResult :=
  match pton4 address with
  | some b => .ok ⟨AF_INET, b⟩
  | none =>
    match pton6 address with
    | some b => .ok ⟨AF_INET6, b⟩
    | none => .fatal (invalidMsg address) EXIT_FAILURE

/-- Splits a character list on a separator character; the separators
are dropped and the fragments between them are returned (a list ending
in the separator yields a trailing empty fragment). -/
def splitOnChar (c : Char) : List Char → List (List Char)
  | [] => [[]]
  | x :: xs =>
    let r := splitOnChar c xs
    if x = c then [] :: r
    else (x :: r.headI) :: r.tail

/-- Decimal value of a digit character. -/
def digitVal (c : Char) : Nat := c.toNat - 48

/-- Modelled from the spec: one decimal octet of an IPv4 dotted quad as
accepted by the platform inet_pton(AF_INET) that convert_address calls
(not part of this repository): one to three decimal digits, no leading
zero, value at most 255. -/
def parseOctet (t : List Char) : Option Nat :=
  if t.length = 0 ∨ 3 < t.length then none
  else if !(t.all fun c => c.isDigit) then none
  else if 1 < t.length ∧ t.headI = '0' then none
  else
    let v := t.foldl (fun acc c => acc * 10 + digitVal c) 0
    if v ≤ 255 then some v else none

/-- Modelled from the spec: the platform inet_pton(AF_INET) called by
convert_address (not part of this repository): accepts exactly four
dot-separated decimal octets and yields their four bytes in network
order. -/
def inet_pton4 (address : List Char) : Option (List Nat) :=
  let parts := splitOnChar '.' address
  if parts.length = 4 then parts.mapM parseOctet
  else none

/-- Hexadecimal value of a hex digit character. -/
def hexVal (c : Char) : Nat :=
  if c.isDigit then c.toNat - 48
  else if 'a' ≤ c ∧ c ≤ 'f' then c.toNat - 87
  else c.toNat - 55

/-- Whether a character is a hexadecimal digit. -/
def isHexChar (c : Char) : Bool :=
  c.isDigit || ('a' ≤ c && c ≤ 'f') || ('A' ≤ c && c ≤ 'F')

/-- Modelled from the spec: one 16-bit hexadecimal group of an IPv6
text representation: one to four hex digits. -/
def parseHexGroup (t : List Char) : Option Nat :=
  if t.length = 0 ∨ 4 < t.length then none
  else if !(t.all isHexChar) then none
  else some (t.foldl (fun acc c => acc * 16 + hexVal c) 0)

/-- Modelled from the spec: the platform inet_pton(AF_INET6) called by
convert_address (not part of this repository), modelled on the fragment
this development exercises: a text without a colon (such as a dotted
quad) is never a valid IPv6 representation and is rejected, and the
full uncompressed form of eight colon-separated hexadecimal groups is
accepted with its canonical sixteen bytes (each group big-endian).
Compressed forms are outside the modelled fragment. -/
def inet_pton6 (address : List Char) : Option (List Nat) :=
  let parts := splitOnChar ':' address
  if parts.length = 8 then
    match parts.mapM parseHexGroup with
    | some gs => some ((gs.map fun g => [g / 256 % 256, g % 256]).flatten)
    | none => none
  else none

/-- Family dispatch shared by socket_bind and socket_connect: what the
function does after inspecting ss_family. -/
inductive FamilyDispatch
  /-- The function proceeds with this sockaddr length. -/
  | proceed (addrLen : Nat)
  /-- The function prints the internal-error line about ss_family and
  exits with EXIT_FAILURE. -/
  | internalErrorExit
deriving DecidableEq

/-- sizeof(struct sockaddr_in) on the reference platform. -/
def sizeof_sockaddr_in : Nat := 16

/-- sizeof(struct sockaddr_in6) on the reference platform. -/
def sizeof_sockaddr_in6 : Nat := 28

/-- The family dispatch of socket_bind (chat.c lines 362-385): IPv4 and
IPv6 proceed with their sockaddr sizes; any other family hits the
internal-error branch and exits. -/
def socket_bind_family (family : Nat) : FamilyDispatch :=
  if family = AF_INET then .proceed sizeof_sockaddr_in
  else if family = AF_INET6 then .proceed sizeof_sockaddr_in6
  else .internalErrorExit

/-- The family dispatch of socket_connect (chat.c lines 486-507): same
shape as the one in socket_bind. -/
def socket_connect_family (family : Nat) : FamilyDispatch :=
  if family = AF_INET then .proceed sizeof_sockaddr_in
  else if family = AF_INET6 then .proceed sizeof_sockaddr_in6
  else .internalErrorExit

/-- The two roles main can run in, per the parsed -a / -c flags. -/
inductive Role
  | listener
  | dialer
deriving DecidableEq

/-- Value of the client_sockfd variable of main after connection setup:
it is initialized to 0 (chat.c line 93) and assigned only inside the
accept loop, which runs only in the listener role (chat.c lines
106-121). -/
def clientSockfdAfterSetup (role : Role) (acceptedFd : Nat) : Nat :=
  match role with
  | .dialer => 0
  | .listener => acceptedFd

/-- The cleanup of main (chat.c lines 144-157): socket_close on
client_sockfd, then socket_close on host_sockfd; socket_close (chat.c
lines 523-530) exits with EXIT_FAILURE when close fails.  closeOk says
whether close succeeds on a descriptor.  Returns the descriptors close
was attempted on, in order, and the resulting exit code. -/
def mainCleanup (closeOk : Nat → Bool) (client_sockfd host_sockfd : Nat) :
    List Nat × Nat :=
  if closeOk client_sockfd then
    if closeOk host_sockfd then ([client_sockfd, host_sockfd], EXIT_SUCCESS)
    else ([client_sockfd, host_sockfd], EXIT_FAILURE)
  else ([client_sockfd], EXIT_FAILURE)

/-! Helper lemmas shared by the claim theorems. -/

/-- takeWhile with the nonzero test keeps a NUL-free list whole. -/
theorem takeWhile_ne_zero_of_forall (l : List Nat) (h : ∀ b ∈ l, b ≠ 0) :
    l.takeWhile (fun b => b != 0) = l :=
  List.takeWhile_eq_self_iff.mpr (fun b hb => by simpa using h b hb)

/-- strlen of a NUL-free modelled C string is its length. -/
theorem strlenList_eq_length (l : List Nat) (h : ∀ b ∈ l, b ≠ 0) :
    strlenList l = l.length := by
  unfold strlenList
  rw [takeWhile_ne_zero_of_forall l h]

/-- write_to_socket on a NUL-free message performs exactly the header
write and the verbatim message write. -/
theorem write_to_socket_eq (e : Endianness) (m : List Nat) (h : ∀ b ∈ m, b ≠ 0) :
    write_to_socket e m = [bytesOfUInt16 e (m.length % 65536), m] := by
  unfold write_to_socket
  simp only [strlenList_eq_length m h, List.take_length]

/-- The object representation of a uint16_t always occupies 2 bytes. -/
theorem bytesOfUInt16_length (e : Endianness) (n : Nat) :
    (bytesOfUInt16 e n).length = 2 := by
  cases e <;> rfl

/-- Reading back the object representation of a uint16_t on the same
host recovers the stored value. -/
theorem uint16_object_roundtrip (e : Endianness) (n : Nat) (h : n < 65536) :
    uint16OfBytes e (bytesOfUInt16 e n).headI (bytesOfUInt16 e n).tail.headI = n := by
  cases e <;> simp [bytesOfUInt16, uint16OfBytes, List.headI] <;> omega

/-- A full 2-byte header read decodes to the value the sender stored,
independently of the indeterminate initial bytes of the size variable. -/
theorem headerValue_bytesOfUInt16 (e : Endianness) (u0 u1 n : Nat) (h : n < 65536) :
    headerValue e u0 u1 (bytesOfUInt16 e n) = n := by
  cases e <;> simp [headerValue, bytesOfUInt16, uint16OfBytes, List.headI] <;> omega

/-- recvStream on a stream that starts with a full header: the header
read returns the 2 header bytes and the payload read returns the first
size bytes of the remainder. -/
theorem recvStream_frame (e : Endianness) (u0 u1 n : Nat) (t : List Nat)
    (hn : n < 65536) :
    recvStream e u0 u1 (bytesOfUInt16 e n ++ t)
      = (read_from_socket e u0 u1 (bytesOfUInt16 e n) (t.take n), t.drop n) := by
  have h2 := bytesOfUInt16_length e n
  unfold recvStream
  simp only [List.take_left' h2, List.drop_left' h2,
    headerValue_bytesOfUInt16 e u0 u1 n hn]

/-- read_from_socket when the header read returned bytes and the
payload read returned a NUL-free count below the buffer size: the two
read calls use counts 2 and the decoded size, and the returned payload
bytes are delivered to local output unchanged. -/
theorem read_from_socket_delivers (e : Endianness) (u0 u1 : Nat) (r1 r2 : List Nat)
    (h1 : r1.length ≠ 0) (h2 : 0 < r2.length) (h3 : r2.length < LINE_LENGTH)
    (h4 : ∀ b ∈ r2, b ≠ 0) :
    read_from_socket e u0 u1 r1 r2 =
      { calls := [⟨2, r1⟩, ⟨headerValue e u0 u1 r1, r2⟩], result := .output r2 } := by
  have e2 : ¬ r2.length = 0 := by omega
  have e3 : ¬ LINE_LENGTH ≤ r2.length := Nat.not_le.mpr h3
  unfold read_from_socket
  simp only [if_neg h1, if_neg e2, if_neg e3, takeWhile_ne_zero_of_forall r2 h4]

/-! Claim theorems. -/

/-- C1 counterexample: on the little-endian reference platform, the
length header write_to_socket emits for the one-byte payload [65] is
[1, 0] — the raw uint16_t object representation, written without
htons — which is not the big-endian header [0, 1] the claim states. -/
theorem write_to_socket_not_bigendian_on_little :
    write_to_socket .little [65] = [[1, 0], [65]] ∧
      [1, 0] ≠ specBigEndianHeader 1 := by
  exact ⟨by decide, by decide⟩

/-- C1 amended: for every NUL-free payload, write_to_socket performs
exactly two writes — first the two bytes of the length in host byte
order with value strlen(payload) truncated to 16 bits, then the payload
verbatim; decoding the header on the same host recovers the truncated
length, and the header coincides with the big-endian format of the
claim exactly on big-endian hosts. -/
theorem write_to_socket_frames_host_order (e : Endianness) (m : List Nat)
    (h : ∀ b ∈ m, b ≠ 0) :
    write_to_socket e m = [bytesOfUInt16 e (m.length % 65536), m] ∧
      uint16OfBytes e (bytesOfUInt16 e (m.length % 65536)).headI
          (bytesOfUInt16 e (m.length % 65536)).tail.headI = m.length % 65536 ∧
      bytesOfUInt16 .big (m.length % 65536) = specBigEndianHeader (m.length % 65536) := by
  refine ⟨write_to_socket_eq e m h,
    uint16_object_roundtrip e _ (Nat.mod_lt _ (by norm_num)), rfl⟩

/-- C1 witness: the amended theorem applied to the payload [65] on a
big-endian host. -/
theorem write_to_socket_frames_host_order_witness :
    write_to_socket .big [65] = [bytesOfUInt16 .big (([65] : List Nat).length % 65536), [65]] :=
  (write_to_socket_frames_host_order .big [65] (by decide)).1

/-- C2: the receiver does not stay within its 1024-byte buffer.  For an
incoming frame declaring length 2000 (header bytes 208, 7 on the
little-endian reference platform) followed by 2000 available payload
bytes, read_from_socket passes the unclamped count 2000 to the payload
read for the LINE_LENGTH-byte stack buffer; the read stores 2000 bytes
and the NUL terminator store lands at index 2000, outside the buffer. -/
theorem read_from_socket_overflow_at_2000 :
    (recvStream .little 0 0 ([208, 7] ++ List.replicate 2000 65)).1.result = .oob 2000 ∧
      ((recvStream .little 0 0 ([208, 7] ++ List.replicate 2000 65)).1.calls.map
        ReadCall.count) = [2, 2000] ∧
      LINE_LENGTH < 2000 := by
  have htake : (([208, 7] ++ List.replicate 2000 65 : List Nat)).take 2 = [208, 7] := rfl
  have hdrop : (([208, 7] ++ List.replicate 2000 65 : List Nat)).drop 2
      = List.replicate 2000 65 := rfl
  have hv : headerValue .little 0 0 [208, 7] = 2000 := rfl
  unfold recvStream read_from_socket
  simp only [htake, hdrop, hv, List.take_replicate]
  norm_num [LINE_LENGTH, List.length_replicate]

/-- C3 counterexample: an accept call interrupted by a signal (errno
EINTR) followed by a peer ready to be accepted: main does not retry —
the loop ends the process with exit(EXIT_FAILURE) instead of accepting
the waiting peer. -/
theorem accept_eintr_not_retried :
    acceptLoop [.err true, .ok 5] = some .exitFailure ∧
      acceptLoop [.err true, .ok 5] ≠ some (.accepted 5) := by
  exact ⟨by decide, by decide⟩

/-- C3 amended: when accept fails with EINTR, socket_accept_connection
returns -1 and suppresses its perror diagnostic — its only special
treatment of the interruption — but the caller in main treats every -1
return like any other accept failure: it exits with EXIT_FAILURE and
never retries, so the interruption is fatal to the process. -/
theorem accept_failure_always_fatal (interrupted : Bool) (rest : List AcceptOutcome) :
    (socket_accept_connection (.err interrupted)).retval = -1 ∧
      (socket_accept_connection (.err interrupted)).perrorPrinted = !interrupted ∧
      acceptLoop (.err interrupted :: rest) = some .exitFailure := by
  refine ⟨rfl, rfl, ?_⟩
  simp [acceptLoop, socket_accept_connection]

/-- C4: whenever a read of the socket returns zero bytes — at the
2-byte header step or at the payload step — read_from_socket ends the
whole process with exit(EXIT_SUCCESS), i.e. exit code 0; at the loop
level, an inbound iteration over an exhausted stream ends the process
with EXIT_SUCCESS. -/
theorem zero_read_exits_success (e : Endianness) (u0 u1 : Nat) (r1 r2 : List Nat)
    (s : ProcState) :
    (r1 = [] → (read_from_socket e u0 u1 r1 r2).result = .exitSuccess) ∧
      (r2 = [] → (read_from_socket e u0 u1 r1 r2).result = .exitSuccess) ∧
      (s.sigtstp_flag = false → s.netIn = [] →
        read_message_step e u0 u1 s = .exited EXIT_SUCCESS) := by
  refine ⟨?_, ?_, ?_⟩
  · intro h
    subst h
    simp [read_from_socket]
  · intro h
    subst h
    by_cases h1 : r1.length = 0
    · simp [read_from_socket, h1]
    · simp [read_from_socket, h1]
  · intro hf hn
    simp [read_message_step, recvStream, read_from_socket, hf, hn]

/-- C4 witness: the theorem applied to a closed stream and to a blank
process state whose socket input is exhausted. -/
theorem zero_read_exits_success_witness :
    (read_from_socket .little 0 0 [] []).result = .exitSuccess ∧
      read_message_step .little 0 0 ⟨false, [], [], [], []⟩ = .exited EXIT_SUCCESS := by
  have h := zero_read_exits_success .little 0 0 [] [] ⟨false, [], [], [], []⟩
  exact ⟨h.1 rfl, h.2.2 rfl rfl⟩

/-- C5 counterexample: the empty payload — length 0, inside the range
[0, 1024] the claim covers — does not round-trip: its encoding is just
the header, and on decode the payload read of count 0 returns zero
bytes, which read_from_socket treats as end of stream, exiting the
process instead of yielding the payload. -/
theorem roundtrip_fails_empty_payload :
    (recvStream .little 0 0 ((write_to_socket .little []).flatten)).1.result
        = .exitSuccess ∧
      (recvStream .little 0 0 ((write_to_socket .little []).flatten)).1.result
        ≠ .output [] := by
  exact ⟨by decide, by decide⟩

/-- C5 amended: over a loopback stream, encoding with write_to_socket
and decoding with read_from_socket yields exactly the original NUL-free
payload for lengths 1..1023; at length 0 the receiver misreads the
zero-byte payload read as end of stream and exits, and at length 1024
the receiver stores its NUL terminator at index 1024, outside its
1024-byte buffer. -/
theorem frame_roundtrip_bounds (e : Endianness) (u0 u1 : Nat) (payload rest : List Nat)
    (h : ∀ b ∈ payload, b ≠ 0) :
    (1 ≤ payload.length → payload.length ≤ 1023 →
        (recvStream e u0 u1 ((write_to_socket e payload).flatten ++ rest)).1.result
          = .output payload) ∧
      (payload.length = 0 →
        (recvStream e u0 u1 ((write_to_socket e payload).flatten ++ rest)).1.result
          = .exitSuccess) ∧
      (payload.length = 1024 →
        (recvStream e u0 u1 ((write_to_socket e payload).flatten ++ rest)).1.result
          = .oob 1024) := by
  have hw : (write_to_socket e payload).flatten ++ rest
      = bytesOfUInt16 e (payload.length % 65536) ++ (payload ++ rest) := by
    rw [write_to_socket_eq e payload h]
    simp
  refine ⟨?_, ?_, ?_⟩
  · intro hlo hhi
    have hmod : payload.length % 65536 = payload.length := Nat.mod_eq_of_lt (by omega)
    have htk : (payload ++ rest).take (payload.length % 65536) = payload := by
      rw [hmod]
      exact List.take_left' rfl
    rw [hw, recvStream_frame e u0 u1 _ _ (Nat.mod_lt _ (by norm_num)), htk]
    have h2 := bytesOfUInt16_length e (payload.length % 65536)
    rw [read_from_socket_delivers e u0 u1 _ _ (by omega) (by omega) (by
      unfold LINE_LENGTH
      omega) h]
  · intro h0
    have hpl : payload = [] := List.length_eq_zero.mp h0
    subst hpl
    rw [hw, recvStream_frame e u0 u1 _ _ (by norm_num)]
    simp [read_from_socket, bytesOfUInt16_length]
  · intro h1024
    have hmod : payload.length % 65536 = payload.length := Nat.mod_eq_of_lt (by omega)
    have htk : (payload ++ rest).take (payload.length % 65536) = payload := by
      rw [hmod]
      exact List.take_left' rfl
    rw [hw, recvStream_frame e u0 u1 _ _ (Nat.mod_lt _ (by norm_num)), htk]
    have h2 := bytesOfUInt16_length e (payload.length % 65536)
    have hne : ¬ (bytesOfUInt16 e (payload.length % 65536)).length = 0 := by omega
    have hpne : ¬ payload.length = 0 := by omega
    have hge : LINE_LENGTH ≤ payload.length := by
      unfold LINE_LENGTH
      omega
    unfold read_from_socket
    simp only [if_neg hne, if_neg hpne, if_pos hge]
    rw [h1024]

/-- C5 witness: the amended round trip applied to the one-byte payload
[65] on the little-endian reference platform. -/
theorem frame_roundtrip_bounds_witness :
    (recvStream .little 0 0 ((write_to_socket .little [65]).flatten ++ [])).1.result
      = .output [65] :=
  (frame_roundtrip_bounds .little 0 0 [65] [] (by decide)).1 (by decide) (by decide)

/-- C6: convert_address attempts the IPv4 conversion first; on failure
it attempts IPv6; when both fail it emits the offending string to
diagnostic output (the stderr line begins with the string) and the
process terminates with the non-zero code EXIT_FAILURE; on success the
storage carries exactly the matching family tag with the binary bytes
the conversion produced. -/
theorem convert_address_order (pton4 pton6 : List Char → Option (List Nat))
    (address : List Char) :
    (∀ b4, pton4 address = some b4 →
        convert_address pton4 pton6 address = .ok ⟨AF_INET, b4⟩) ∧
      (∀ b6, pton4 address = none → pton6 address = some b6 →
        convert_address pton4 pton6 address = .ok ⟨AF_INET6, b6⟩) ∧
      (pton4 address = none → pton6 address = none →
        convert_address pton4 pton6 address = .fatal (invalidMsg address) EXIT_FAILURE ∧
          (invalidMsg address).take address.length = address ∧ EXIT_FAILURE ≠ 0) := by
  refine ⟨?_, ?_, ?_⟩
  · intro b4 h4
    simp [convert_address, h4]
  · intro b6 h4 h6
    simp [convert_address, h4, h6]
  · intro h4 h6
    refine ⟨by simp [convert_address, h4, h6], ?_, by decide⟩
    unfold invalidMsg
    exact List.take_left' rfl

/-- C6 witness: with the modelled platform conversions, the string
999.999.999.999 is rejected by both families, so convert_address prints
it to stderr and exits with EXIT_FAILURE. -/
theorem convert_address_order_witness :
    convert_address inet_pton4 inet_pton6 ("999.999.999.999".toList)
      = .fatal (invalidMsg ("999.999.999.999".toList)) EXIT_FAILURE :=
  ((convert_address_order inet_pton4 inet_pton6 ("999.999.999.999".toList)).2.2
    (by decide) (by decide)).1

/-- C7 counterexample: the peer sends a header declaring 3 payload
bytes, one payload byte 65, and closes the connection; the header read
returns the full header, the single payload read returns only 1 byte,
and read_from_socket delivers that partial frame to local output
instead of reading exactly 3 bytes — a frame is delivered from a
partial payload read. -/
theorem partial_payload_delivered :
    (recvStream .little 0 0 [3, 0, 65]).1.result = .output [65] ∧
      headerValue .little 0 0 [3, 0] = 3 ∧ ([65] : List Nat).length ≠ 3 := by
  exact ⟨by decide, by decide, by decide⟩

/-- C7 amended: read_from_socket issues exactly one read with count 2
for the header and one read with count equal to the decoded length for
the payload, and it delivers to local output whatever NUL-free bytes
that single payload read returned — short reads are never completed, so
the delivered frame is the bytes actually read, not necessarily the
declared length. -/
theorem read_from_socket_single_reads (e : Endianness) (u0 u1 : Nat) (r1 r2 : List Nat)
    (h1 : r1.length = 2) (h2 : 0 < r2.length) (h3 : r2.length < LINE_LENGTH)
    (h4 : ∀ b ∈ r2, b ≠ 0) :
    read_from_socket e u0 u1 r1 r2 =
      { calls := [⟨2, r1⟩, ⟨headerValue e u0 u1 r1, r2⟩], result := .output r2 } :=
  read_from_socket_delivers e u0 u1 r1 r2 (by omega) h2 h3 h4

/-- C7 witness: the amended theorem applied to a full header declaring
5 bytes and a partial payload read of 2 bytes. -/
theorem read_from_socket_single_reads_witness :
    read_from_socket .little 0 0 [5, 0] [65, 66] =
      { calls := [⟨2, [5, 0]⟩, ⟨headerValue .little 0 0 [5, 0], [65, 66]⟩],
        result := .output [65, 66] } :=
  read_from_socket_single_reads .little 0 0 [5, 0] [65, 66] (by decide) (by decide)
    (by decide) (by decide)

/-- C8: the shutdown flag is a one-way latch: the SIGTSTP handler sets
it to true and changes nothing else in the process state; setting it
twice equals setting it once; neither loop body ever changes the flag;
and once the flag is true both the outbound and the inbound loop exit
at their very next flag check, before performing any further body. -/
theorem sigtstp_flag_latch (e : Endianness) (u0 u1 : Nat) (s t : ProcState) :
    (sigtstp_handler s).sigtstp_flag = true ∧
      (sigtstp_handler s).netIn = s.netIn ∧
      (sigtstp_handler s).netOut = s.netOut ∧
      (sigtstp_handler s).stdinLines = s.stdinLines ∧
      (sigtstp_handler s).stdout = s.stdout ∧
      sigtstp_handler (sigtstp_handler s) = sigtstp_handler s ∧
      (write_message_step e s = some t → t.sigtstp_flag = s.sigtstp_flag) ∧
      (read_message_step e u0 u1 s = .stepped t → t.sigtstp_flag = s.sigtstp_flag) ∧
      (s.sigtstp_flag = true →
        write_message_step e s = none ∧ read_message_step e u0 u1 s = .loopExit) := by
  refine ⟨rfl, rfl, rfl, rfl, rfl, rfl, ?_, ?_, ?_⟩
  · intro h
    unfold write_message_step at h
    by_cases hf : s.sigtstp_flag
    · simp [hf] at h
    · simp [hf] at h
      rw [← h]
      simp only [Bool.not_eq_true] at hf
      exact hf.symm
  · intro h
    unfold read_message_step at h
    by_cases hf : s.sigtstp_flag
    · simp [hf] at h
    · simp only [hf, if_neg Bool.false_ne_true] at h
      cases hr : (recvStream e u0 u1 s.netIn).1.result with
      | exitSuccess => rw [hr] at h; simp at h
      | oob n => rw [hr] at h; simp at h
      | output bytes =>
        rw [hr] at h
        simp at h
        rw [← h]
        simp only [Bool.not_eq_true] at hf
        exact hf.symm
  · intro hf
    exact ⟨by simp [write_message_step, hf], by simp [read_message_step, hf]⟩

/-- C8 witness: the handler applied to a blank state, and both loop
iterations applied to a state with the flag already set. -/
theorem sigtstp_flag_latch_witness :
    (sigtstp_handler ⟨false, [], [], [], []⟩).sigtstp_flag = true ∧
      write_message_step .little ⟨true, [], [], [], []⟩ = none ∧
      read_message_step .little 0 0 ⟨true, [], [], [], []⟩ = .loopExit := by
  have h1 := sigtstp_flag_latch .little 0 0 ⟨false, [], [], [], []⟩ ⟨false, [], [], [], []⟩
  have h2 := sigtstp_flag_latch .little 0 0 ⟨true, [], [], [], []⟩ ⟨true, [], [], [], []⟩
  obtain ⟨-, -, -, -, -, -, -, -, hlast⟩ := h2
  exact ⟨h1.1, (hlast rfl).1, (hlast rfl).2⟩

/-- C9: every storage convert_address returns carries family AF_INET or
AF_INET6, so the internal-error exits of socket_bind and socket_connect
(family neither IPv4 nor IPv6) are unreachable on any address that went
through convert_address. -/
theorem family_dispatch_never_internal_error
    (pton4 pton6 : List Char → Option (List Nat)) (address : List Char)
    (st : SockaddrStorage)
    (h : convert_address pton4 pton6 address = .ok st) :
    (st.ss_family = AF_INET ∨ st.ss_family = AF_INET6) ∧
      socket_bind_family st.ss_family ≠ .internalErrorExit ∧
      socket_connect_family st.ss_family ≠ .internalErrorExit := by
  have hfam : st.ss_family = AF_INET ∨ st.ss_family = AF_INET6 := by
    unfold convert_address at h
    cases h4 : pton4 address with
    | some b =>
      rw [h4] at h
      simp at h
      left
      rw [← h]
    | none =>
      rw [h4] at h
      cases h6 : pton6 address with
      | some b =>
        rw [h6] at h
        simp at h
        right
        rw [← h]
      | none =>
        rw [h6] at h
        simp at h
  refine ⟨hfam, ?_, ?_⟩ <;> rcases hfam with hf | hf <;>
    simp [socket_bind_family, socket_connect_family, hf, AF_INET, AF_INET6]

/-- C9 witness: the theorem applied to the address 127.0.0.1 resolved
by the modelled platform conversions. -/
theorem family_dispatch_never_internal_error_witness :
    socket_bind_family (SockaddrStorage.mk AF_INET [127, 0, 0, 1]).ss_family
        ≠ .internalErrorExit ∧
      socket_connect_family (SockaddrStorage.mk AF_INET [127, 0, 0, 1]).ss_family
        ≠ .internalErrorExit := by
  have h := family_dispatch_never_internal_error inet_pton4 inet_pton6
    ("127.0.0.1".toList) ⟨AF_INET, [127, 0, 0, 1]⟩ (by decide)
  exact ⟨h.2.1, h.2.2⟩

/-- C10: in the dialer role the client_sockfd variable keeps its
initial value 0 for the whole run, so the cleanup of main closes file
descriptor 0 — standard input — before the dialing socket; when that
close fails the process exits with EXIT_FAILURE, and when it succeeds
the dialing socket is closed right after. -/
theorem dialer_cleanup_closes_stdin (closeOk : Nat → Bool) (hostFd acceptedFd : Nat) :
    clientSockfdAfterSetup .dialer acceptedFd = STDIN_FILENO ∧
      ((mainCleanup closeOk (clientSockfdAfterSetup .dialer acceptedFd) hostFd).1.head?
        = some STDIN_FILENO) ∧
      (closeOk STDIN_FILENO = false →
        mainCleanup closeOk (clientSockfdAfterSetup .dialer acceptedFd) hostFd
          = ([STDIN_FILENO], EXIT_FAILURE)) ∧
      (closeOk STDIN_FILENO = true →
        (mainCleanup closeOk (clientSockfdAfterSetup .dialer acceptedFd) hostFd).1
          = [STDIN_FILENO, hostFd]) := by
  refine ⟨rfl, ?_, ?_, ?_⟩
  · by_cases h0 : closeOk 0
    · by_cases hh : closeOk hostFd <;>
        simp [mainCleanup, clientSockfdAfterSetup, STDIN_FILENO, h0, hh]
    · simp [mainCleanup, clientSockfdAfterSetup, STDIN_FILENO, h0]
  · intro h0
    have h0n : closeOk 0 = false := h0
    simp [mainCleanup, clientSockfdAfterSetup, STDIN_FILENO, h0n]
  · intro h0
    have h0y : closeOk 0 = true := h0
    by_cases hh : closeOk hostFd <;>
      simp [mainCleanup, clientSockfdAfterSetup, STDIN_FILENO, h0y, hh]

/-- C10 witness: the theorem applied with a close that fails on every
descriptor: the dialer cleanup attempts close(0) only and the process
exits with EXIT_FAILURE. -/
theorem dialer_cleanup_closes_stdin_witness :
    mainCleanup (fun _ => false) (clientSockfdAfterSetup .dialer 5) 7
      = ([STDIN_FILENO], EXIT_FAILURE) :=
  (dialer_cleanup_closes_stdin (fun _ => false) 7 5).2.2.1 rfl

/-- C3 witness: the amended theorem applied to an interrupted accept
followed by a peer ready to be accepted. -/
theorem accept_failure_always_fatal_witness :
    acceptLoop [AcceptOutcome.err true, AcceptOutcome.ok 5] = some .exitFailure :=
  (accept_failure_always_fatal true [AcceptOutcome.ok 5]).2.2
